import Mathlib

/-!
Verification development for the browser live-voice client (React `App`
component plus `types.ts`).  The mutable refs and React state of the
component are embedded as a single record `AppState`; each event handler
of the source becomes a pure state transformer, and the asynchronous
event loop becomes a trace of events folded through a `step` function.
Machine floats of the audio clock are modelled as rationals.
-/

namespace LiveApp

/-- `SessionStatus` enum from `types.ts` (all four declared values,
including `ERROR`, which the component never assigns). -/
inductive SessionStatus where
  | IDLE
  | CONNECTING
  | CONNECTED
  | ERROR
deriving DecidableEq, Repr

/-- A JSON scalar as produced by the host `JSON.parse` on the flat command
objects this client consumes: string or integer values (every `MouseCommand`
payload is a flat object of strings and integer numerals). -/
inductive JVal where
  | str (s : String)
  | num (n : Int)
deriving DecidableEq, Repr

/-- A parsed flat JSON object: the runtime value `JSON.parse` yields for a
command payload and that `setLastCommand` stores. -/
abbrev JObj := List (String × JVal)

/-- One `AudioBufferSourceNode` scheduled by the audio branch of
`onmessage`.  `inActive` models membership in the `audioSourcesRef` set;
`stopped` records whether `stop()` has been called on the node. -/
structure SourceBuf where
  startAt : ℚ
  duration : ℚ
  inActive : Bool
  stopped : Bool
deriving DecidableEq, Repr

/-- The component state: React `useState` values and the mutable refs of
the `App` component.  Media streams live in a pool `streams : ℕ → Bool`
mapping a stream id to "all its tracks are stopped"; `videoSrc` is the
stream currently attached to the video element (`videoRef.srcObject`).
Sessions are identified by the order their `ai.live.connect` call was
issued: `pendingSessions` are connects in flight, `openSessions` are
connects that resolved and have not been closed. -/
structure AppState where
  status : SessionStatus
  isCameraEnabled : Bool
  isScreenSharing : Bool
  isMuted : Bool
  isMouseMode : Bool
  isUserTalking : Bool
  isModelTalking : Bool
  lastCommand : Option JObj
  sessionRef : Option ℕ
  pendingSessions : List ℕ
  openSessions : List ℕ
  nextSessionId : ℕ
  nextStartTime : ℚ
  audioSources : List SourceBuf
  nodesConnected : Bool
  videoSrc : Option ℕ
  streams : ℕ → Bool
  frameInterval : Bool
  mediaRequest : ℕ

/-- Initial component state (the `useState` initialisers: idle, mouse mode
on, nothing captured, empty playback queue). -/
def initState : AppState where
  status := SessionStatus.IDLE
  isCameraEnabled := false
  isScreenSharing := false
  isMuted := false
  isMouseMode := true
  isUserTalking := false
  isModelTalking := false
  lastCommand := none
  sessionRef := none
  pendingSessions := []
  openSessions := []
  nextSessionId := 0
  nextStartTime := 0
  audioSources := []
  nodesConnected := false
  videoSrc := none
  streams := fun _ => false
  frameInterval := false
  mediaRequest := 0

/-- `s.stop()` on a scheduled source followed by removal from the
`audioSourcesRef` set (the `try { s.stop() } catch {}` / `clear()` pattern:
stopping marks the node stopped; a node not in the set is untouched). -/
def stopBuf (b : SourceBuf) : SourceBuf :=
  if b.inActive then { b with stopped := true, inActive := false } else b

/-- Stop every track of stream `sid` in the pool. -/
def stopStreamTracks (pool : ℕ → Bool) (sid : ℕ) : ℕ → Bool :=
  fun i => if i = sid then true else pool i

/-- `stopMediaTracks`: stop the tracks of the stream attached to the video
element, detach it, and clear the 1 Hz frame-sampling interval. -/
def stopMediaTracksFn (st : AppState) : AppState :=
  { st with
    streams := match st.videoSrc with
      | some sid => stopStreamTracks st.streams sid
      | none => st.streams
    videoSrc := none
    frameInterval := false }

/-- `stopSession`: close the tracked session (if any) and null the refs,
disconnect the audio graph nodes, stop and clear all scheduled playback
sources, stop and detach the camera/screen stream, clear the frame timer,
and reset the public flags (status Idle, talking indicators off, capture
flags off). -/
def stopSessionFn (st : AppState) : AppState :=
  { st with
    sessionRef := none
    openSessions := match st.sessionRef with
      | some id => st.openSessions.erase id
      | none => st.openSessions
    nodesConnected := false
    audioSources := st.audioSources.map stopBuf
    videoSrc := none
    streams := match st.videoSrc with
      | some sid => stopStreamTracks st.streams sid
      | none => st.streams
    frameInterval := false
    status := SessionStatus.IDLE
    isUserTalking := false
    isModelTalking := false
    isCameraEnabled := false
    isScreenSharing := false }

/-- The `interrupted` branch of `onmessage`: stop every source in the
active set, clear the set, zero `nextStartTimeRef`, and mark the model as
not talking. -/
def handleInterrupted (st : AppState) : AppState :=
  { st with
    audioSources := st.audioSources.map stopBuf
    nextStartTime := 0
    isModelTalking := false }

/-- The audio branch of `onmessage` for one decoded chunk: mark the model
talking, clamp `nextStartTimeRef` up to the output clock (`now`), start
the new source at that time, advance `nextStartTimeRef` by the chunk
duration, and add the source to the active set. -/
def enqueueAudio (st : AppState) (now dur : ℚ) : AppState :=
  { st with
    isModelTalking := true
    nextStartTime := max st.nextStartTime now + dur
    audioSources :=
      st.audioSources ++ [⟨max st.nextStartTime now, dur, true, false⟩] }

/-- The synchronous prefix of `startSession`: set status Connecting and
issue a fresh `ai.live.connect` call (one new pending session id). -/
def startSessionBegin (st : AppState) : AppState :=
  { st with
    status := SessionStatus.CONNECTING
    pendingSessions := st.pendingSessions ++ [st.nextSessionId]
    nextSessionId := st.nextSessionId + 1 }

/-- A pending `ai.live.connect` resolves: `onopen` fires (status
Connected, microphone graph wired) and `await sessionPromise` stores the
session in `sessionRef`.  This runs whenever the promise resolves,
regardless of any teardown that happened meanwhile. -/
def resolveConnect (st : AppState) (id : ℕ) : AppState :=
  if id ∈ st.pendingSessions then
    { st with
      status := SessionStatus.CONNECTED
      pendingSessions := st.pendingSessions.erase id
      openSessions := st.openSessions ++ [id]
      sessionRef := some id
      nodesConnected := true }
  else st

/-- A pending `ai.live.connect` rejects: the `catch` of `startSession`
sets status Idle; the session never opens. -/
def connectFail (st : AppState) (id : ℕ) : AppState :=
  if id ∈ st.pendingSessions then
    { st with
      status := SessionStatus.IDLE
      pendingSessions := st.pendingSessions.erase id }
  else st

/-- `applyMouseMode`: update the mode flag (and instruction), and if a
session is open or opening, tear it down; the delayed `startSession` of
the `setTimeout` is a separate later trace event. -/
def applyMouseModeEv (st : AppState) (enabled : Bool) : AppState :=
  let st1 := { st with isMouseMode := enabled }
  if st.status = SessionStatus.CONNECTED ∨ st.status = SessionStatus.CONNECTING
  then stopSessionFn st1 else st1

/-- Shared start of `toggleCamera` / `toggleScreenShare`: pre-increment
the media-request counter and capture its new value, then stop any current
media tracks.  Returns the state together with the captured sequence. -/
def mediaAcquireBegin (st : AppState) : AppState × ℕ :=
  let st1 := { st with mediaRequest := st.mediaRequest + 1 }
  (stopMediaTracksFn st1, st1.mediaRequest)

/-- `startMediaStreaming`: attach the stream to the video element and
(re)start the 1 Hz frame-sampling interval. -/
def startMediaStreamingFn (st : AppState) (sid : ℕ) : AppState :=
  { st with videoSrc := some sid, frameInterval := true }

/-- `getUserMedia` resolution inside `toggleCamera`: if the captured
sequence no longer equals the counter the stream is released (all tracks
stopped) and discarded; otherwise it is attached and the capture flags
set. -/
def resolveCameraSuccess (st : AppState) (seq sid : ℕ) : AppState :=
  if seq ≠ st.mediaRequest then
    { st with streams := stopStreamTracks st.streams sid }
  else
    { startMediaStreamingFn st sid with
      isCameraEnabled := true
      isScreenSharing := false }

/-- `getDisplayMedia` resolution inside `toggleScreenShare`, with the
same staleness check. -/
def resolveScreenSuccess (st : AppState) (seq sid : ℕ) : AppState :=
  if seq ≠ st.mediaRequest then
    { st with streams := stopStreamTracks st.streams sid }
  else
    { startMediaStreamingFn st sid with
      isScreenSharing := true
      isCameraEnabled := false }

/-- The whole `toggleCamera` enable path when acquisition fails: counter
bumped, current tracks stopped, then the `catch` resets only the camera
flag. -/
def toggleCameraFailure (st : AppState) : AppState :=
  let st1 := stopMediaTracksFn { st with mediaRequest := st.mediaRequest + 1 }
  { st1 with isCameraEnabled := false }

/-- The whole `toggleScreenShare` enable path when acquisition fails: the
`catch` resets only the screen-sharing flag. -/
def toggleScreenFailure (st : AppState) : AppState :=
  let st1 := stopMediaTracksFn { st with mediaRequest := st.mediaRequest + 1 }
  { st1 with isScreenSharing := false }

/-- Mean absolute sample value of a microphone frame (the energy
heuristic of `onaudioprocess`); an empty frame yields `0`. -/
def meanAbs (samples : List ℚ) : ℚ :=
  (samples.map (fun x => |x|)).sum / samples.length

/-- `scriptProcessor.onaudioprocess` for one 4096-sample frame: when
muted, force the user-talking indicator off and forward nothing; when
unmuted, set the indicator by the energy threshold and forward the frame
(the channel data handed to `createBlob`) to the transport. -/
def onAudioProcess (st : AppState) (samples : List ℚ) :
    AppState × Option (List ℚ) :=
  if st.isMuted then ({ st with isUserTalking := false }, none)
  else
    ({ st with isUserTalking := decide (meanAbs samples > 1 / 100) },
      some samples)

/-- Events of the single-threaded browser event loop that drive the
component: key presses, the resolution points of the asynchronous calls,
transport callbacks, and inbound server messages. -/
inductive Ev where
  | pressEnter
  | pressEscape
  | pressM
  | startSession
  | resolveConnect (id : ℕ)
  | connectFail (id : ℕ)
  | stopSession
  | transportError
  | transportClose
  | interrupted
  | audioChunk (now dur : ℚ)
  | modeSwitch (enabled : Bool)

/-- One event-loop step, dispatching to the handler the source registers
for that event (`handleKeyDown`, the `onmessage` branches, the
`onerror`/`onclose` callbacks, the connect promise continuations). -/
def step (st : AppState) : Ev → AppState
  | Ev.pressEnter =>
      if st.status = SessionStatus.CONNECTED then stopSessionFn st
      else startSessionBegin st
  | Ev.pressEscape =>
      if st.status = SessionStatus.CONNECTED then stopSessionFn st else st
  | Ev.pressM => { st with isMuted := !st.isMuted }
  | Ev.startSession => startSessionBegin st
  | Ev.resolveConnect id => resolveConnect st id
  | Ev.connectFail id => connectFail st id
  | Ev.stopSession => stopSessionFn st
  | Ev.transportError => stopSessionFn st
  | Ev.transportClose => stopSessionFn st
  | Ev.interrupted => handleInterrupted st
  | Ev.audioChunk now dur => enqueueAudio st now dur
  | Ev.modeSwitch enabled => applyMouseModeEv st enabled

/-- Run a trace of events from a state. -/
def runTrace (st : AppState) : List Ev → AppState
  | [] => st
  | e :: es => runTrace (step st e) es

/-- Number of live connects: sessions open plus connects in flight. -/
def liveCount (st : AppState) : ℕ :=
  st.openSessions.length + st.pendingSessions.length

/-- Does this event initiate a new session start?  (`startSession`
directly, or Enter while not Connected.) -/
def isStartEv (st : AppState) (e : Ev) : Bool :=
  match e with
  | Ev.startSession => true
  | Ev.pressEnter => !(decide (st.status = SessionStatus.CONNECTED))
  | _ => false

/-- A trace is guarded when every session start happens with no session
open and no connect in flight. -/
def guarded : AppState → List Ev → Bool
  | _, [] => true
  | st, e :: es =>
      (!(isStartEv st e) ||
        (st.openSessions.isEmpty && st.pendingSessions.isEmpty)) &&
      guarded (step st e) es

/-! ### Command Interpreter (the text branch of `onmessage`) -/

/-- The double-quote character. -/
def dquote : Char := Char.ofNat 34

/-- The opening curly-brace character. -/
def lbrace : Char := Char.ofNat 123

/-- The closing curly-brace character. -/
def rbrace : Char := Char.ofNat 125

/-- The backslash character. -/
def bslash : Char := Char.ofNat 92

/-- JSON whitespace: space, line feed, tab, carriage return. -/
def isWs (c : Char) : Bool :=
  c = ' ' || c = Char.ofNat 10 || c = Char.ofNat 9 || c = Char.ofNat 13

/-- Drop leading JSON whitespace. -/
def skipWs : List Char → List Char
  | [] => []
  | c :: cs => if isWs c then skipWs cs else c :: cs

/-- Body of a JSON string literal after its opening quote, up to the
closing quote.  Escape sequences are not modelled (no command payload
contains them); a backslash is treated as a decode failure. -/
def parseStringBody : List Char → Option (List Char × List Char)
  | [] => none
  | c :: cs =>
      if c = dquote then some ([], cs)
      else if c = bslash then none
      else (parseStringBody cs).map (fun pr => (c :: pr.1, pr.2))

/-- Longest leading run of decimal digits. -/
def digitSpan : List Char → List Char × List Char
  | [] => ([], [])
  | c :: cs =>
      if c.isDigit then
        let pr := digitSpan cs
        (c :: pr.1, pr.2)
      else ([], c :: cs)

/-- Numeric value of a digit run. -/
def digitsToNat (ds : List Char) : ℕ :=
  ds.foldl (fun acc c => acc * 10 + (c.toNat - 48)) 0

/-- A JSON integer numeral: optional minus sign, then digits. -/
def parseIntLit (cs : List Char) : Option (Int × List Char) :=
  match cs with
  | c :: rest =>
      if c = '-' then
        let pr := digitSpan rest
        if pr.1.isEmpty then none
        else some (-(digitsToNat pr.1 : Int), pr.2)
      else
        let pr := digitSpan cs
        if pr.1.isEmpty then none else some ((digitsToNat pr.1 : Int), pr.2)
  | [] => none

/-- A JSON scalar value: a string literal or an integer numeral. -/
def parseVal (cs : List Char) : Option (JVal × List Char) :=
  match skipWs cs with
  | c :: rest =>
      if c = dquote then
        (parseStringBody rest).map (fun pr => (JVal.str (String.mk pr.1), pr.2))
      else (parseIntLit (c :: rest)).map (fun pr => (JVal.num pr.1, pr.2))
  | [] => none

/-- Members of a JSON object, positioned just after the opening brace or
after a comma; consumes up to and including the closing brace.  Fuelled
recursion (the fuel is an upper bound on the member count). -/
def parseMembers : ℕ → List Char → Option (JObj × List Char)
  | 0, _ => none
  | fuel + 1, cs =>
      match skipWs cs with
      | c :: rest =>
          if c = dquote then
            match parseStringBody rest with
            | none => none
            | some (key, r1) =>
                match skipWs r1 with
                | c2 :: r2 =>
                    if c2 = ':' then
                      match parseVal r2 with
                      | none => none
                      | some (v, r3) =>
                          match skipWs r3 with
                          | c3 :: r4 =>
                              if c3 = ',' then
                                (parseMembers fuel r4).map
                                  (fun pr => ((String.mk key, v) :: pr.1, pr.2))
                              else if c3 = rbrace then
                                some ([(String.mk key, v)], r4)
                              else none
                          | [] => none
                    else none
                | [] => none
          else none
      | [] => none

/-- Models the host `JSON.parse` restricted to flat objects of string and
integer values — the shape of every `MouseCommand` payload.  Inputs
outside this fragment (nested values, floats, booleans, escapes) are
decode failures, as is any trailing non-whitespace. -/
def jsonParseObj (s : String) : Option JObj :=
  match skipWs s.toList with
  | c :: rest =>
      if c = lbrace then
        match skipWs rest with
        | c2 :: r2 =>
            if c2 = rbrace then
              if (skipWs r2).isEmpty then some [] else none
            else
              match parseMembers (rest.length + 1) rest with
              | some (obj, r) => if (skipWs r).isEmpty then some obj else none
              | none => none
        | [] => none
      else none
  | [] => none

/-- Substring containment on character lists. -/
def containsSub (l pat : List Char) : Bool :=
  match l with
  | [] => pat.isEmpty
  | c :: rest => pat.isPrefixOf (c :: rest) || containsSub rest pat

/-- `text.trim()` of the host: drop leading and trailing whitespace. -/
def trimList (cs : List Char) : List Char :=
  (skipWs ((skipWs cs).reverse)).reverse

/-- `isJsonLike`: the trimmed text starts with an opening brace and
contains the literal substring `"action"` (quotes included). -/
def isJsonLike (text : String) : Bool :=
  let t := trimList text.toList
  (match t with
   | c :: _ => c = lbrace
   | [] => false) &&
  containsSub t (dquote :: ("action".toList ++ [dquote]))

/-- The greedy brace-span regex match applied to the text: from the first
opening brace to the last closing brace, provided the latter comes after
the former; no match otherwise. -/
def braceSpan (text : String) : Option String :=
  let cs := text.toList
  match cs.findIdx? (fun c => c = lbrace) with
  | none => none
  | some i =>
      match cs.reverse.findIdx? (fun c => c = rbrace) with
      | none => none
      | some k =>
          let j := cs.length - 1 - k
          if i < j then some (String.mk ((cs.drop i).take (j - i + 1)))
          else none

/-- JavaScript truthiness of a property read on the parsed object: absent
is falsy, the empty string is falsy, the number zero is falsy. -/
def jsTruthy : Option JVal → Bool
  | none => false
  | some (JVal.str s) => !(decide (s = ""))
  | some (JVal.num n) => !(decide (n = 0))

/-- The command-extraction pipeline of the text branch of `onmessage`:
pre-filter with `isJsonLike`, take the greedy brace-span match, decode it
(a decode failure is caught and yields no command), and surface the
parsed object only when its `action` is truthy and not the sentinel
`none`. -/
def tryParse (text : String) : Option JObj :=
  if isJsonLike text then
    match braceSpan text with
    | none => none
    | some sub =>
        match jsonParseObj sub with
        | none => none
        | some cmd =>
            if jsTruthy (cmd.lookup "action") &&
               !(decide (cmd.lookup "action" = some (JVal.str "none")))
            then some cmd else none
  else none

/-! ### Command HUD expiry timers -/

/-- The command display subsystem: the wall clock in milliseconds, the
displayed command, and the fire times of the pending
`setTimeout(() => setLastCommand(null), 3000)` callbacks. -/
structure HudState where
  now : ℕ
  lastCommand : Option JObj
  timers : List ℕ
deriving DecidableEq, Repr

/-- Publishing a parsed command: display it and schedule an independent
clear exactly 3000 ms after its creation.  Pending timers of earlier
commands are untouched. -/
def publishCommand (s : HudState) (cmd : JObj) : HudState :=
  { s with lastCommand := some cmd, timers := s.timers ++ [s.now + 3000] }

/-- The event loop fires the clear callback scheduled for time `t`: the
displayed command is cleared unconditionally (the callback does not check
which command is showing) and that timer is consumed. -/
def fireTimer (s : HudState) (t : ℕ) : HudState :=
  if t ∈ s.timers then
    { now := t, lastCommand := none, timers := s.timers.erase t }
  else { s with now := t }

/-! ### Concrete states used by witnesses -/

/-- A state with one active scheduled source. -/
def stC2 : AppState := { initState with audioSources := [⟨0, 1, true, false⟩] }

/-- The active source of `stC2` paired with its stopped image. -/
def prC2 : SourceBuf × SourceBuf := (⟨0, 1, true, false⟩, ⟨0, 1, false, true⟩)

/-- A state with a stream attached to the video element. -/
def stC4 : AppState := { initState with videoSrc := some 0 }

/-- A state whose media-request counter has advanced to 2. -/
def stC5 : AppState := { initState with mediaRequest := 2 }

/-- A muted state. -/
def stMuted : AppState := { initState with isMuted := true }

/-- A HUD state with one pending expiry timer. -/
def hud0 : HudState := { now := 0, lastCommand := none, timers := [3000] }

/-- Two enqueue calls: durations 1 at clock 0, then 1 at clock 2. -/
def enqC1 : List (ℚ × ℚ) := [(0, 1), (2, 1)]

/-- Run a sequence of audio-chunk enqueues (clock reading, duration). -/
def runEnqueues (st : AppState) : List (ℚ × ℚ) → AppState
  | [] => st
  | pr :: rest => runEnqueues (enqueueAudio st pr.1 pr.2) rest

/-- Non-overlap of two consecutively scheduled buffers: the first ends no
later than the second starts, and starts are non-decreasing. -/
def bufChain (a b : SourceBuf) : Prop :=
  a.startAt + a.duration ≤ b.startAt ∧ a.startAt ≤ b.startAt

/-- Scheduling invariant: the scheduled buffers are pairwise sequential
and all end no later than `nextStartTime`. -/
def SchedInv (st : AppState) : Prop :=
  List.Chain' bufChain st.audioSources ∧
  ∀ b ∈ st.audioSources,
    b.startAt + b.duration ≤ st.nextStartTime ∧ b.startAt ≤ st.nextStartTime

/-! ### Helper lemmas -/

theorem stopBuf_stopBuf (b : SourceBuf) : stopBuf (stopBuf b) = stopBuf b := by
  cases hb : b.inActive <;> simp [stopBuf, hb]

theorem map_stopBuf_stopBuf (l : List SourceBuf) :
    (l.map stopBuf).map stopBuf = l.map stopBuf := by
  induction l with
  | nil => rfl
  | cons a l ih => simp [stopBuf_stopBuf, ih]

theorem stopBuf_not_inActive (b : SourceBuf) : (stopBuf b).inActive = false := by
  cases hb : b.inActive <;> simp [stopBuf, hb]

theorem all_inactive_map (l : List SourceBuf) :
    ((l.map stopBuf).all fun b => !b.inActive) = true := by
  rw [List.all_eq_true]
  intro b hb
  rcases List.mem_map.mp hb with ⟨a, -, rfl⟩
  simp [stopBuf_not_inActive]

theorem mem_zip_map {α β : Type} (f : α → β) :
    ∀ (l : List α) (pr : α × β), pr ∈ l.zip (l.map f) → pr.2 = f pr.1
  | a :: l, pr, h => by
      rcases (List.mem_cons).mp h with h1 | h2
      · subst h1; rfl
      · exact mem_zip_map f l pr h2

/-! ### C2 — interruption flushes the playback queue -/

/-- C2: on an `interrupted` server signal the component stops every
source in the active set (the stopped image of each active buffer is
marked stopped), empties the active set, zeroes the next-start-time, and
marks the model as not talking; this is exactly what the `interrupted`
event does in the step relation. -/
theorem interrupt_flushes_playback (st : AppState)
    (pr : SourceBuf × SourceBuf)
    (hmem : pr ∈ st.audioSources.zip (handleInterrupted st).audioSources)
    (hact : pr.1.inActive = true) :
    (handleInterrupted st).isModelTalking = false ∧
    (handleInterrupted st).nextStartTime = 0 ∧
    ((handleInterrupted st).audioSources.all fun b => !b.inActive) = true ∧
    pr.2.stopped = true ∧
    step st Ev.interrupted = handleInterrupted st := by
  have h2 : pr.2 = stopBuf pr.1 :=
    mem_zip_map stopBuf st.audioSources pr hmem
  refine ⟨rfl, rfl, all_inactive_map st.audioSources, ?_, rfl⟩
  rw [h2]; simp [stopBuf, hact]

theorem interrupt_flushes_playback_witness :
    prC2 ∈ stC2.audioSources.zip (handleInterrupted stC2).audioSources ∧
    prC2.1.inActive = true ∧
    ((handleInterrupted stC2).nextStartTime = 0 ∧ prC2.2.stopped = true) :=
  ⟨by decide, by decide,
    ⟨(interrupt_flushes_playback stC2 prC2 (by decide) (by decide)).2.1,
     (interrupt_flushes_playback stC2 prC2 (by decide) (by decide)).2.2.2.1⟩⟩

/-! ### C4 — teardown is idempotent -/

/-- C4: `stopSession` is idempotent, the transport error and close
callbacks and the explicit stop all invoke the same teardown, the
attached camera/screen stream has its tracks stopped, and the final state
has the session closed and untracked, audio graph disconnected, all
scheduled buffers out of the active set, video detached, frame timer
cleared, talking indicators and capture flags off, and status Idle. -/
theorem teardown_idempotent (st : AppState) :
    (∀ sid, st.videoSrc = some sid → (stopSessionFn st).streams sid = true) ∧
    stopSessionFn (stopSessionFn st) = stopSessionFn st ∧
    step st Ev.transportError = stopSessionFn st ∧
    step st Ev.transportClose = stopSessionFn st ∧
    step st Ev.stopSession = stopSessionFn st ∧
    (stopSessionFn st).status = SessionStatus.IDLE ∧
    (stopSessionFn st).sessionRef = none ∧
    (stopSessionFn st).nodesConnected = false ∧
    (stopSessionFn st).videoSrc = none ∧
    (stopSessionFn st).frameInterval = false ∧
    (stopSessionFn st).isUserTalking = false ∧
    (stopSessionFn st).isModelTalking = false ∧
    (stopSessionFn st).isCameraEnabled = false ∧
    (stopSessionFn st).isScreenSharing = false ∧
    ((stopSessionFn st).audioSources.all fun b => !b.inActive) = true := by
  refine ⟨?_, ?_, rfl, rfl, rfl, rfl, rfl, rfl, rfl, rfl, rfl, rfl, rfl, rfl,
    all_inactive_map st.audioSources⟩
  · intro sid hs
    simp [stopSessionFn, hs, stopStreamTracks]
  · simp [stopSessionFn, map_stopBuf_stopBuf]
    intro a _
    exact stopBuf_stopBuf a

theorem teardown_idempotent_witness :
    stC4.videoSrc = some 0 ∧ (stopSessionFn stC4).streams 0 = true :=
  ⟨rfl, (teardown_idempotent stC4).1 0 rfl⟩

/-! ### C5 — stale media acquisitions are discarded -/

/-- C5: an acquisition captures the media-request counter value right
after pre-incrementing it, and a resolution whose captured sequence the
counter has advanced past stops all tracks of the acquired stream and
never attaches it: the video element, frame timer and capture flags are
unchanged — for camera and screen acquisitions alike. -/
theorem stale_media_acquisition (st : AppState) (seq sid : ℕ)
    (hstale : seq < st.mediaRequest) :
    (mediaAcquireBegin st).2 = st.mediaRequest + 1 ∧
    (mediaAcquireBegin st).1.mediaRequest = st.mediaRequest + 1 ∧
    (resolveCameraSuccess st seq sid).streams sid = true ∧
    (resolveCameraSuccess st seq sid).videoSrc = st.videoSrc ∧
    (resolveCameraSuccess st seq sid).frameInterval = st.frameInterval ∧
    (resolveCameraSuccess st seq sid).isCameraEnabled = st.isCameraEnabled ∧
    (resolveScreenSuccess st seq sid).streams sid = true ∧
    (resolveScreenSuccess st seq sid).videoSrc = st.videoSrc ∧
    (resolveScreenSuccess st seq sid).frameInterval = st.frameInterval ∧
    (resolveScreenSuccess st seq sid).isScreenSharing = st.isScreenSharing := by
  have hne : seq ≠ st.mediaRequest := Nat.ne_of_lt hstale
  refine ⟨rfl, rfl, ?_, ?_, ?_, ?_, ?_, ?_, ?_, ?_⟩ <;>
    simp [resolveCameraSuccess, resolveScreenSuccess, hne, stopStreamTracks]

theorem stale_media_acquisition_witness :
    (1 : ℕ) < stC5.mediaRequest ∧
    ((resolveCameraSuccess stC5 1 0).streams 0 = true ∧
     (resolveCameraSuccess stC5 1 0).videoSrc = stC5.videoSrc) :=
  ⟨by decide,
    ⟨(stale_media_acquisition stC5 1 0 (by decide)).2.2.1,
     (stale_media_acquisition stC5 1 0 (by decide)).2.2.2.1⟩⟩

/-! ### C8 — independent per-command expiry timers -/

/-- C8: publishing a command displays it and appends a clear timer firing
exactly 3000 ms after its own creation; pending timers of earlier
commands are neither cancelled nor rescheduled by the new command, and
when any scheduled timer fires the displayed command is cleared — even if
a newer command was published meanwhile. -/
theorem command_expiry_independent (s : HudState) (cmd : JObj) (t : ℕ)
    (ht : t ∈ s.timers) :
    (publishCommand s cmd).lastCommand = some cmd ∧
    (publishCommand s cmd).timers = s.timers ++ [s.now + 3000] ∧
    t ∈ (publishCommand s cmd).timers ∧
    (fireTimer s t).lastCommand = none ∧
    (fireTimer (publishCommand s cmd) t).lastCommand = none := by
  have hmem : t ∈ (publishCommand s cmd).timers := by
    simp [publishCommand]; exact Or.inl ht
  refine ⟨rfl, rfl, hmem, ?_, ?_⟩
  · simp [fireTimer, ht]
  · simp [fireTimer, hmem]

theorem command_expiry_independent_witness :
    (3000 : ℕ) ∈ hud0.timers ∧ (fireTimer hud0 3000).lastCommand = none :=
  ⟨by decide, (command_expiry_independent hud0 [] 3000 (by decide)).2.2.2.1⟩

/-! ### C9 — capture failures are local -/

/-- C9: a failed camera (resp. screen) acquisition resets only that
capability's flag; the status, the other capture flag, the tracked and
open sessions, the pending connects, the audio graph and all playback
state are untouched. -/
theorem capture_failure_local (st : AppState) :
    (toggleCameraFailure st).isCameraEnabled = false ∧
    (toggleCameraFailure st).status = st.status ∧
    (toggleCameraFailure st).isScreenSharing = st.isScreenSharing ∧
    (toggleCameraFailure st).sessionRef = st.sessionRef ∧
    (toggleCameraFailure st).openSessions = st.openSessions ∧
    (toggleCameraFailure st).pendingSessions = st.pendingSessions ∧
    (toggleCameraFailure st).nodesConnected = st.nodesConnected ∧
    (toggleCameraFailure st).nextStartTime = st.nextStartTime ∧
    (toggleCameraFailure st).audioSources = st.audioSources ∧
    (toggleCameraFailure st).isModelTalking = st.isModelTalking ∧
    (toggleScreenFailure st).isScreenSharing = false ∧
    (toggleScreenFailure st).status = st.status ∧
    (toggleScreenFailure st).isCameraEnabled = st.isCameraEnabled ∧
    (toggleScreenFailure st).sessionRef = st.sessionRef ∧
    (toggleScreenFailure st).openSessions = st.openSessions ∧
    (toggleScreenFailure st).pendingSessions = st.pendingSessions ∧
    (toggleScreenFailure st).nodesConnected = st.nodesConnected ∧
    (toggleScreenFailure st).nextStartTime = st.nextStartTime ∧
    (toggleScreenFailure st).audioSources = st.audioSources ∧
    (toggleScreenFailure st).isModelTalking = st.isModelTalking :=
  ⟨rfl, rfl, rfl, rfl, rfl, rfl, rfl, rfl, rfl, rfl,
   rfl, rfl, rfl, rfl, rfl, rfl, rfl, rfl, rfl, rfl⟩

/-! ### C10 — mute drops microphone frames entirely -/

/-- C10: while muted the per-frame handler forwards nothing (the frame is
dropped, not sent as silence) and forces the user-talking indicator off;
while unmuted it forwards the frame and sets the indicator by the 0.01
mean-absolute-energy threshold; a frame is forwarded only when unmuted. -/
theorem mute_drops_frames (st : AppState) (samples : List ℚ) :
    (st.isMuted = true →
      (onAudioProcess st samples).2 = none ∧
      (onAudioProcess st samples).1.isUserTalking = false) ∧
    (st.isMuted = false →
      (onAudioProcess st samples).2 = some samples ∧
      (onAudioProcess st samples).1.isUserTalking
        = decide (meanAbs samples > 1 / 100)) ∧
    (∀ f, (onAudioProcess st samples).2 = some f → st.isMuted = false) := by
  cases h : st.isMuted <;> simp [onAudioProcess, h]

theorem mute_drops_frames_witness :
    stMuted.isMuted = true ∧ (onAudioProcess stMuted [1]).2 = none :=
  ⟨rfl, ((mute_drops_frames stMuted [1]).1 rfl).1⟩

/-! ### C6 — command parsing examples -/

/-- C6: the move command parses to exactly its four fields, `not json`
yields no command (it fails the pre-filter), and the sentinel
`action: none` yields no command; the pipeline is a total function, so a
decode failure yields `none` rather than an exception. -/
theorem command_parse_examples :
    tryParse "\x7b\"action\":\"move\",\"direction\":\"left\",\"value\":10,\"application\":\"\"\x7d" =
      some [("action", JVal.str "move"), ("direction", JVal.str "left"),
            ("value", JVal.num 10), ("application", JVal.str "")] ∧
    tryParse "not json" = none ∧
    tryParse "\x7b\"action\":\"none\"\x7d" = none :=
  ⟨by decide, by decide, by decide⟩

/-! ### C7 — status values and forced teardown -/

theorem stopSessionFn_openSessions_le (st : AppState) :
    (stopSessionFn st).openSessions.length ≤ st.openSessions.length := by
  cases hsr : st.sessionRef with
  | none => simp [stopSessionFn, hsr]
  | some id =>
      simp only [stopSessionFn, hsr]
      exact List.length_erase_le _ _

theorem step_preserves_statusOK (st : AppState) (e : Ev)
    (h : st.status ≠ SessionStatus.ERROR) :
    (step st e).status ≠ SessionStatus.ERROR := by
  cases e <;>
    simp [step, stopSessionFn, startSessionBegin, resolveConnect, connectFail,
      handleInterrupted, enqueueAudio, applyMouseModeEv] <;>
    (try split_ifs) <;> simp_all

theorem runTrace_statusOK :
    ∀ (tr : List Ev) (st : AppState), st.status ≠ SessionStatus.ERROR →
      (runTrace st tr).status ≠ SessionStatus.ERROR
  | [], _, h => h
  | e :: es, st, h =>
      runTrace_statusOK es (step st e) (step_preserves_statusOK st e h)

/-- C7: along every event trace from the initial state the published
status is Idle, Connecting or Connected — the declared `ERROR` value is
never assigned — and both the transport error and the transport close
callbacks invoke the full teardown, which forces status Idle and starts
no new connect (pending connects and the session-id counter are
untouched, and the set of open sessions never grows). -/
theorem status_never_error (tr : List Ev) :
    ((runTrace initState tr).status = SessionStatus.IDLE ∨
     (runTrace initState tr).status = SessionStatus.CONNECTING ∨
     (runTrace initState tr).status = SessionStatus.CONNECTED) ∧
    (∀ st : AppState, step st Ev.transportError = stopSessionFn st) ∧
    (∀ st : AppState, step st Ev.transportClose = stopSessionFn st) ∧
    (∀ st : AppState, (stopSessionFn st).status = SessionStatus.IDLE) ∧
    (∀ st : AppState, (stopSessionFn st).pendingSessions = st.pendingSessions) ∧
    (∀ st : AppState, (stopSessionFn st).nextSessionId = st.nextSessionId) ∧
    (∀ st : AppState,
      (stopSessionFn st).openSessions.length ≤ st.openSessions.length) := by
  refine ⟨?_, fun _ => rfl, fun _ => rfl, fun _ => rfl, fun _ => rfl,
    fun _ => rfl, ?_⟩
  · have h := runTrace_statusOK tr initState (by simp [initState])
    cases hs : (runTrace initState tr).status with
    | IDLE => exact Or.inl rfl
    | CONNECTING => exact Or.inr (Or.inl rfl)
    | CONNECTED => exact Or.inr (Or.inr rfl)
    | ERROR => exact absurd hs h
  · intro st
    exact stopSessionFn_openSessions_le st

/-! ### C3 — at most one live session -/

theorem liveCount_stopSessionFn (st : AppState) :
    liveCount (stopSessionFn st) ≤ liveCount st :=
  Nat.add_le_add_right (stopSessionFn_openSessions_le st) _

theorem liveCount_step_le (st : AppState) (e : Ev)
    (h : isStartEv st e = false) : liveCount (step st e) ≤ liveCount st := by
  cases e with
  | pressEnter =>
      have hc : st.status = SessionStatus.CONNECTED := by
        simpa [isStartEv] using h
      simpa [step, hc] using liveCount_stopSessionFn st
  | pressEscape =>
      by_cases hc : st.status = SessionStatus.CONNECTED
      · simpa [step, hc] using liveCount_stopSessionFn st
      · simp [step, hc]
  | pressM => simp [step, liveCount]
  | startSession => simp [isStartEv] at h
  | resolveConnect id =>
      by_cases hm : id ∈ st.pendingSessions
      · have hl := List.length_erase_of_mem hm
        have hpos : 0 < st.pendingSessions.length := List.length_pos.mpr
          (fun hnil => by simp [hnil] at hm)
        simp only [step, liveCount, resolveConnect]
        rw [if_pos hm]
        simp
        omega
      · simp [step, resolveConnect, hm]
  | connectFail id =>
      by_cases hm : id ∈ st.pendingSessions
      · have h2 := List.length_erase_le id st.pendingSessions
        simp only [step, liveCount, connectFail]
        rw [if_pos hm]
        simp
        omega
      · simp [step, connectFail, hm]
  | stopSession => simpa [step] using liveCount_stopSessionFn st
  | transportError => simpa [step] using liveCount_stopSessionFn st
  | transportClose => simpa [step] using liveCount_stopSessionFn st
  | interrupted => simp [step, handleInterrupted, liveCount]
  | audioChunk now dur => simp [step, enqueueAudio, liveCount]
  | modeSwitch enabled =>
      by_cases hc : st.status = SessionStatus.CONNECTED ∨
          st.status = SessionStatus.CONNECTING
      · simpa [step, applyMouseModeEv, hc] using
          liveCount_stopSessionFn { st with isMouseMode := enabled }
      · simp [step, applyMouseModeEv, hc, liveCount]

theorem liveCount_step_start (st : AppState) (e : Ev)
    (h : isStartEv st e = true) (ho : st.openSessions = [])
    (hp : st.pendingSessions = []) : liveCount (step st e) ≤ 1 := by
  cases e with
  | pressEnter =>
      have hc : ¬ st.status = SessionStatus.CONNECTED := by
        simpa [isStartEv] using h
      simp [step, hc, startSessionBegin, liveCount, ho, hp]
  | startSession => simp [step, startSessionBegin, liveCount, ho, hp]
  | pressEscape => simp [isStartEv] at h
  | pressM => simp [isStartEv] at h
  | resolveConnect id => simp [isStartEv] at h
  | connectFail id => simp [isStartEv] at h
  | stopSession => simp [isStartEv] at h
  | transportError => simp [isStartEv] at h
  | transportClose => simp [isStartEv] at h
  | interrupted => simp [isStartEv] at h
  | audioChunk now dur => simp [isStartEv] at h
  | modeSwitch enabled => simp [isStartEv] at h

theorem guarded_liveCount :
    ∀ (tr : List Ev) (st : AppState), guarded st tr = true →
      liveCount st ≤ 1 → liveCount (runTrace st tr) ≤ 1
  | [], _, _, hl => hl
  | e :: es, st, hg, hl => by
      have hg' : ((!(isStartEv st e) ||
          (st.openSessions.isEmpty && st.pendingSessions.isEmpty)) &&
          guarded (step st e) es) = true := hg
      simp only [Bool.and_eq_true] at hg'
      obtain ⟨h1, h2⟩ := hg'
      cases hs : isStartEv st e with
      | false =>
          exact guarded_liveCount es (step st e) h2
            (le_trans (liveCount_step_le st e hs) hl)
      | true =>
          rw [hs] at h1
          simp only [Bool.not_true, Bool.false_or, Bool.and_eq_true] at h1
          exact guarded_liveCount es (step st e) h2
            (liveCount_step_start st e hs
              (List.isEmpty_iff.mp h1.1) (List.isEmpty_iff.mp h1.2))

/-- C3 counterexample: pressing Enter while Idle starts a connect, and
pressing Enter again while still Connecting starts a second one; once
both connects resolve, two sessions are concurrently open. -/
theorem two_open_sessions_counterexample :
    (runTrace initState
      [Ev.pressEnter, Ev.pressEnter, Ev.resolveConnect 0,
       Ev.resolveConnect 1]).openSessions.length = 2 := by decide

/-- C3 (amended): along any trace in which a session start (Enter while
not Connected, or a direct `startSession` call) is only initiated when no
session is open and no connect is in flight, at most one session is open
at the end of the trace — and hence, the trace being arbitrary, at every
moment. -/
theorem single_session_under_guard (tr : List Ev)
    (h : guarded initState tr = true) :
    (runTrace initState tr).openSessions.length ≤ 1 := by
  have hl := guarded_liveCount tr initState h (by simp [liveCount, initState])
  exact le_trans (Nat.le_add_right _ _) hl

theorem single_session_under_guard_witness :
    guarded initState
      [Ev.pressEnter, Ev.resolveConnect 0, Ev.pressEnter, Ev.pressEnter,
       Ev.resolveConnect 1] = true ∧
    (runTrace initState
      [Ev.pressEnter, Ev.resolveConnect 0, Ev.pressEnter, Ev.pressEnter,
       Ev.resolveConnect 1]).openSessions.length ≤ 1 :=
  ⟨by decide, single_session_under_guard _ (by decide)⟩

/-! ### C1 — gapless monotone playback scheduling -/

theorem enqueue_inv (st : AppState) (now dur : ℚ) (hdur : 0 ≤ dur)
    (h : SchedInv st) : SchedInv (enqueueAudio st now dur) := by
  obtain ⟨hchain, hend⟩ := h
  have hup : st.nextStartTime ≤ max st.nextStartTime now + dur :=
    le_trans (le_max_left _ _) (le_add_of_nonneg_right hdur)
  constructor
  · simp only [enqueueAudio]
    refine List.chain'_append.mpr ⟨hchain, List.chain'_singleton _, ?_⟩
    intro x hx y hy
    have hx' : x ∈ st.audioSources := List.mem_of_mem_getLast? hx
    have hb := hend x hx'
    have hy' : (⟨max st.nextStartTime now, dur, true, false⟩ : SourceBuf) = y := by
      simpa using hy
    subst hy'
    exact ⟨le_trans hb.1 (le_max_left _ _), le_trans hb.2 (le_max_left _ _)⟩
  · intro b hb
    simp only [enqueueAudio] at hb ⊢
    rcases List.mem_append.mp hb with h1 | h2
    · have := hend b h1
      exact ⟨le_trans this.1 hup, le_trans this.2 hup⟩
    · have hb' : b = (⟨max st.nextStartTime now, dur, true, false⟩ : SourceBuf) := by
        simpa using h2
      subst hb'
      exact ⟨le_refl _, le_add_of_nonneg_right hdur⟩

theorem runEnqueues_inv :
    ∀ (l : List (ℚ × ℚ)) (st : AppState), (∀ pr ∈ l, 0 ≤ pr.2) →
      SchedInv st → SchedInv (runEnqueues st l)
  | [], _, _, h => h
  | pr :: rest, st, hd, h =>
      runEnqueues_inv rest _ (fun q hq => hd q (List.mem_cons_of_mem _ hq))
        (enqueue_inv st pr.1 pr.2 (hd pr (List.mem_cons_self _ _)) h)

/-- C1: every enqueued chunk is scheduled at `max(nextStartTime, now)`
and `nextStartTime` then advances by the chunk's duration; consequently,
for any sequence of enqueues with non-negative durations from the initial
state, consecutive scheduled buffers never overlap and their start times
are non-decreasing, `nextStartTime` is non-decreasing across every
enqueue, and only the interruption reset sets it back to zero. -/
theorem playback_schedule_correct (l : List (ℚ × ℚ))
    (hd : ∀ pr ∈ l, 0 ≤ pr.2) :
    List.Chain' bufChain (runEnqueues initState l).audioSources ∧
    (∀ (st : AppState) (now dur : ℚ),
      (enqueueAudio st now dur).audioSources =
        st.audioSources ++ [⟨max st.nextStartTime now, dur, true, false⟩] ∧
      (enqueueAudio st now dur).nextStartTime = max st.nextStartTime now + dur) ∧
    (∀ (st : AppState) (now dur : ℚ), 0 ≤ dur →
      st.nextStartTime ≤ (enqueueAudio st now dur).nextStartTime) ∧
    (∀ st : AppState, (handleInterrupted st).nextStartTime = 0) := by
  refine ⟨(runEnqueues_inv l initState hd
      ⟨List.chain'_nil, by simp [initState]⟩).1,
    fun st now dur => ⟨rfl, rfl⟩, ?_, fun st => rfl⟩
  intro st now dur hdur
  simp only [enqueueAudio]
  exact le_trans (le_max_left _ _) (le_add_of_nonneg_right hdur)

theorem playback_schedule_correct_witness :
    (∀ pr ∈ enqC1, (0 : ℚ) ≤ pr.2) ∧
    List.Chain' bufChain (runEnqueues initState enqC1).audioSources :=
  ⟨by decide, (playback_schedule_correct enqC1 (by decide)).1⟩

end LiveApp
